import Mathlib

/-!
# Verification of the DS18B20 one-wire temperature sensor driver

A shallow embedding of the Rust driver (src/lib.rs, src/resolution.rs) for the
DS18B20 family of one-wire temperature sensors, together with proofs of the
specified properties.

Modelling conventions:
* Machine bytes (`u8`) are `Nat` with explicit `< 256` hypotheses where needed.
* `i8` values are `Int` with explicit range hypotheses.
* `f32` temperatures are modelled as `ℚ`; every value the driver computes is a
  16-bit integer divided by a power of two, which is exactly representable in
  binary32 (proved below for claim C10), so the rational model is bit-faithful.
* Bus I/O is modelled by explicit state passing: a `BusState` carries the trace
  of wire actions performed and an oracle for the bits read from the line.
  Transport-level failures (which the driver merely propagates) are not
  modelled; all claims concern the driver's own behaviour on the data it
  receives from the bus.
* The external collaborator `one_wire_bus` (out of scope of the spec, specified
  only at its interface) contributes the CRC-8 check, the `Address` type and
  the read-slot-duration constant; they are modelled from that interface:
  the CRC is the standard Dallas/Maxim CRC-8 (polynomial x^8+x^5+x^4+1,
  LSB-first) that the sensor family uses, `Address` is an opaque 64-bit
  identifier whose lowest byte is the family code, and the read-slot duration
  is a parameter `d` of the model.
-/

set_option maxRecDepth 100000

namespace DS18B20

/-- Error type: the variants of the bus crate's `OneWireError` that this
driver itself produces (transport errors are only propagated and are not
modelled). -/
inductive OneWireError where
  | FamilyCodeMismatch
  | CrcMismatch
  | Timeout
  deriving DecidableEq, Repr

/-- `one_wire_bus::Address`: an opaque 64-bit device identifier. -/
def Address : Type := Fin (2 ^ 64)

instance : DecidableEq Address := instDecidableEqFin _

instance (n : Nat) : OfNat Address n := ⟨Fin.ofNat n⟩

/-- `Address::family_code`: the lowest byte of the 64-bit address. -/
def Address.family_code (a : Address) : Nat := a.val % 256

/-- `pub const FAMILY_CODE: u8 = 0x28;` (src/lib.rs, line 9). -/
def FAMILY_CODE : Nat := 0x28

/-- The four resolutions of `Resolution` (src/resolution.rs, lines 3-10). -/
inductive Resolution where
  | Bits9
  | Bits10
  | Bits11
  | Bits12
  deriving DecidableEq, Repr, Fintype

/-- `Resolution as u8` discriminant values (src/resolution.rs, lines 6-9
and `to_config_register`, lines 38-40). -/
def Resolution.to_config_register : Resolution → Nat
  | .Bits9 => 0b00011111
  | .Bits10 => 0b00111111
  | .Bits11 => 0b01011111
  | .Bits12 => 0b01111111

/-- `Resolution::from_config_register` (src/resolution.rs, lines 28-36). -/
def Resolution.from_config_register (config : Nat) : Option Resolution :=
  match config with
  | 0b00011111 => some .Bits9
  | 0b00111111 => some .Bits10
  | 0b01011111 => some .Bits11
  | 0b01111111 => some .Bits12
  | _ => none

/-- One round of the Dallas/Maxim CRC-8 shift register (reflected polynomial
0x8C). Part of the external collaborator `one_wire_bus::crc`. -/
def crc8_step (crc : Nat) : Nat :=
  if crc % 2 = 1 then (crc / 2) ^^^ 0x8C else crc / 2

/-- Feeding one byte into the Dallas/Maxim CRC-8: xor it into the register
and run 8 shift rounds. -/
def crc8_update (crc b : Nat) : Nat := crc8_step^[8] (crc ^^^ b)

/-- The Dallas/Maxim CRC-8 of a byte sequence, initial value 0. This is the
CRC used by the DS18B20 family and implemented by `one_wire_bus::crc::crc8`. -/
def crc8 (data : List Nat) : Nat := data.foldl crc8_update 0

/-- `one_wire_bus::crc::check_crc8`: succeeds iff the CRC-8 of the whole
buffer (data bytes followed by their CRC byte) is zero. -/
def check_crc8 (data : List Nat) : Except OneWireError Unit :=
  if crc8 data = 0 then .ok () else .error .CrcMismatch

/-- `i8::from_le_bytes([b])`: reinterpret a byte as a signed 8-bit integer
(two's complement). Used for the alarm thresholds (src/lib.rs, lines 199-200). -/
def i8_from_le_byte (b : Nat) : Int :=
  if b < 128 then (b : Int) else (b : Int) - 256

/-- `SensorData` (src/lib.rs, lines 19-31), with the `f32` temperature
modelled as an exact rational (see `float32_representable` below). -/
structure SensorData where
  temperature : ℚ
  resolution : Resolution
  alarm_temp_low : Int
  alarm_temp_high : Int
  deriving DecidableEq, Repr

/-- The resolution-dependent scaling of the raw temperature field
(the `match` in `read_data`, src/lib.rs, lines 190-195). -/
def temperature_of (resolution : Resolution) (raw_temp : Nat) : ℚ :=
  match resolution with
  | .Bits12 => (raw_temp : ℚ) / 16
  | .Bits11 => (raw_temp : ℚ) / 8
  | .Bits10 => (raw_temp : ℚ) / 4
  | .Bits9 => (raw_temp : ℚ) / 2

/-- The data path of `read_scratchpad` (src/lib.rs, lines 157-172): after the
reset / match-address / command preamble the driver reads 9 bytes from the
bus and accepts them only if `check_crc8` succeeds. The argument is the
9-byte sequence delivered by the bus. -/
def read_scratchpad (scratchpad : List Nat) : Except OneWireError (List Nat) :=
  match check_crc8 scratchpad with
  | .error e => .error e
  | .ok _ => .ok scratchpad

/-- The data path of the free function `read_data` (src/lib.rs, lines
174-202): CRC-gated scratchpad read, then resolution decode from byte 4
(an unknown config byte is reported as `CrcMismatch`), then the raw
little-endian 16-bit temperature from bytes 0-1 is scaled, and the alarm
thresholds are read as signed bytes 2 and 3. -/
def read_data (scratchpad : List Nat) : Except OneWireError SensorData :=
  match read_scratchpad scratchpad with
  | .error e => .error e
  | .ok sp =>
    match Resolution.from_config_register (sp.getD 4 0) with
    | none => .error .CrcMismatch
    | some resolution =>
      let raw_temp : Nat := sp.getD 0 0 + 256 * sp.getD 1 0
      let temperature := temperature_of resolution raw_temp
      .ok { temperature := temperature
            resolution := resolution
            alarm_temp_high := i8_from_le_byte (sp.getD 2 0)
            alarm_temp_low := i8_from_le_byte (sp.getD 3 0) }

/-- `Ds18b20` (src/lib.rs, lines 33-35): a handle wrapping one address. -/
structure Ds18b20 where
  address : Address
  deriving DecidableEq

/-- `Ds18b20::new` (src/lib.rs, lines 40-46): a pure check of the address's
family-code byte; no bus I/O (the function takes no bus argument). -/
def Ds18b20.new (address : Address) : Except OneWireError Ds18b20 :=
  if address.family_code = FAMILY_CODE then
    .ok { address := address }
  else
    .error .FamilyCodeMismatch

/-- `commands::WRITE_SCRATCHPAD`. Modelled from the spec: the repository's
`commands` module (declared `pub mod commands;` in src/lib.rs, line 11) is not
present under src/; per spec section 6 the command bytes are the fixed values
from the device family's datasheet. -/
def commands.WRITE_SCRATCHPAD : Nat := 0x4E

/-- `commands::RECALL_EEPROM`. Modelled from the spec: see
`commands.WRITE_SCRATCHPAD`. -/
def commands.RECALL_EEPROM : Nat := 0xB8

/-- One observable action performed on the one-wire bus. -/
inductive BusAction where
  | sendCommand (cmd : Nat) (address : Option Address)
  | writeByte (b : Nat)
  | readBit
  deriving DecidableEq

/-- The bus transport, modelled by explicit state passing: `bits` is the
oracle for the line level returned by successive `read_bit` calls, `reads`
counts the `read_bit` calls made so far, and `trace` records every action in
order. -/
structure BusState where
  bits : Nat → Bool
  reads : Nat
  trace : List BusAction

/-- `OneWire::send_command` (external collaborator): reset + address + command
write, recorded as one trace action. -/
def OneWire.send_command (cmd : Nat) (address : Option Address) (s : BusState) :
    Unit × BusState :=
  ((), { s with trace := s.trace ++ [.sendCommand cmd address] })

/-- `OneWire::write_byte` (external collaborator). -/
def OneWire.write_byte (b : Nat) (s : BusState) : Unit × BusState :=
  ((), { s with trace := s.trace ++ [.writeByte b] })

/-- `OneWire::read_bit` (external collaborator): returns the next bit of the
oracle and advances the read counter. -/
def OneWire.read_bit (s : BusState) : Bool × BusState :=
  (s.bits s.reads, { s with reads := s.reads + 1, trace := s.trace ++ [.readBit] })

/-- `i8::to_ne_bytes(x)[0]`: the two's-complement byte of a signed 8-bit
value (src/lib.rs, lines 92-93). -/
def i8_to_ne_byte (x : Int) : Nat := (x % 256).toNat

/-- `Ds18b20::set_config` (src/lib.rs, lines 80-96): send the write-scratchpad
command addressed to this device, then write the high alarm threshold byte,
the low alarm threshold byte, and the resolution's config-register byte. -/
def Ds18b20.set_config (dev : Ds18b20) (alarm_temp_low alarm_temp_high : Int)
    (resolution : Resolution) (s : BusState) : Unit × BusState :=
  let s := (OneWire.send_command commands.WRITE_SCRATCHPAD (some dev.address) s).2
  let s := (OneWire.write_byte (i8_to_ne_byte alarm_temp_high) s).2
  let s := (OneWire.write_byte (i8_to_ne_byte alarm_temp_low) s).2
  let s := (OneWire.write_byte resolution.to_config_register s).2
  ((), s)

/-- The polling loop of `recall_from_eeprom` (src/lib.rs, lines 216-220):
`for _ in 0..max_retries { if read_bit()? == true { return Ok(()) } }`
followed by `Err(Timeout)`, as a recursion on the remaining iteration count. -/
def recall_poll (fuel : Nat) (s : BusState) : Except OneWireError Unit × BusState :=
  match fuel with
  | 0 => (.error .Timeout, s)
  | Nat.succ fuel =>
    let (bit, s) := OneWire.read_bit s
    if bit = true then (.ok (), s) else recall_poll fuel s

/-- The loop bound of `recall_from_eeprom` (src/lib.rs, line 215):
`(10000 / one_wire_bus::READ_SLOT_DURATION_MICROS) + 1` with Rust integer
(truncating) division, parameterised by the crate's read-slot duration `d`. -/
def max_retries (d : Nat) : Nat := 10000 / d + 1

/-- The free function `recall_from_eeprom` (src/lib.rs, lines 204-222):
send the recall-EEPROM command (addressed or broadcast), then poll
`read_bit` up to `max_retries d` times; the first `true` bit means success,
exhaustion means `Timeout`. -/
def recall_from_eeprom (d : Nat) (address : Option Address) (s : BusState) :
    Except OneWireError Unit × BusState :=
  let s := (OneWire.send_command commands.RECALL_EEPROM address s).2
  recall_poll (max_retries d) s

/-- The divisor table stated by the specification: raw temperature is scaled
by 1/16, 1/8, 1/4, 1/2 for 12/11/10/9-bit resolution. Stated from the spec's
words, to be compared with `temperature_of` from the source. -/
def spec_divisor : Resolution → ℚ
  | .Bits12 => 16
  | .Bits11 => 8
  | .Bits10 => 4
  | .Bits9 => 2

/-- Exact representability in IEEE-754 binary32: a rational is an f32 value
when it is `m * 2^e` with a 24-bit significand and an exponent in the normal
range (so every arithmetic result of this form is produced exactly by f32
operations). -/
def float32_representable (q : ℚ) : Prop :=
  ∃ m : ℤ, ∃ e : ℤ,
    q = (m : ℚ) * (2 : ℚ) ^ e ∧ m.natAbs < 2 ^ 24 ∧ -126 ≤ e ∧ e ≤ 104

/-! ## Helper lemmas about the CRC-8 -/

/-- Eight shift rounds keep the CRC register inside a byte. -/
theorem crc8_step_iterate_lt : ∀ z : Fin 256, crc8_step^[8] z.val < 256 := by decide

/-- Eight shift rounds send a byte to zero exactly when it was zero: the
round function is invertible on bytes and fixes zero. -/
theorem crc8_step_iterate_eq_zero :
    ∀ z : Fin 256, (crc8_step^[8] z.val = 0 ↔ z.val = 0) := by decide

theorem crc8_update_lt {c b : Nat} (hc : c < 256) (hb : b < 256) :
    crc8_update c b < 256 := by
  have hz : c ^^^ b < 256 := Nat.xor_lt_two_pow (n := 8) hc hb
  exact crc8_step_iterate_lt ⟨c ^^^ b, hz⟩

/-- Feeding one more byte drives the CRC register to zero exactly when that
byte equals the current register value. -/
theorem crc8_update_eq_zero_iff {c b : Nat} (hc : c < 256) (hb : b < 256) :
    crc8_update c b = 0 ↔ c = b := by
  have hz : c ^^^ b < 256 := Nat.xor_lt_two_pow (n := 8) hc hb
  have h := crc8_step_iterate_eq_zero ⟨c ^^^ b, hz⟩
  simpa [crc8_update, Nat.xor_eq_zero] using h

theorem crc8_foldl_lt :
    ∀ (data : List Nat) (c : Nat), c < 256 → (∀ b ∈ data, b < 256) →
      List.foldl crc8_update c data < 256 := by
  intro data
  induction data with
  | nil => intro c hc _; simpa using hc
  | cons b t ih =>
    intro c hc hb
    simp only [List.foldl_cons]
    exact ih _ (crc8_update_lt hc (hb b (by simp))) fun x hx => hb x (by simp [hx])

theorem crc8_lt {data : List Nat} (h : ∀ b ∈ data, b < 256) : crc8 data < 256 :=
  crc8_foldl_lt data 0 (by norm_num) h

theorem crc8_append (xs : List Nat) (b : Nat) :
    crc8 (xs ++ [b]) = crc8_update (crc8 xs) b := by
  simp [crc8, List.foldl_append]

/-- The check over data-plus-trailing-CRC-byte succeeds exactly when the
trailing byte is the CRC-8 of the data bytes. -/
theorem crc8_concat_eq_zero_iff {xs : List Nat} {b : Nat}
    (hxs : ∀ x ∈ xs, x < 256) (hb : b < 256) :
    crc8 (xs ++ [b]) = 0 ↔ crc8 xs = b := by
  rw [crc8_append]
  exact crc8_update_eq_zero_iff (crc8_lt hxs) hb

/-! ## Helper lemmas about `read_data` -/

/-- Computation of `read_data` on a 9-byte scratchpad whose CRC check passes
and whose config byte decodes. -/
theorem read_data_eq_ok (b0 b1 b2 b3 b4 b5 b6 b7 b8 : Nat) (res : Resolution)
    (hcrc : crc8 [b0, b1, b2, b3, b4, b5, b6, b7, b8] = 0)
    (hres : Resolution.from_config_register b4 = some res) :
    read_data [b0, b1, b2, b3, b4, b5, b6, b7, b8] =
      .ok { temperature := temperature_of res (b0 + 256 * b1)
            resolution := res
            alarm_temp_low := i8_from_le_byte b3
            alarm_temp_high := i8_from_le_byte b2 } := by
  simp [read_data, read_scratchpad, check_crc8, hcrc, hres]

/-- The source's per-resolution divisions agree with the spec's divisor
table. -/
theorem temperature_of_eq_div (res : Resolution) (raw : Nat) :
    temperature_of res raw = (raw : ℚ) / spec_divisor res := by
  cases res <;> simp [temperature_of, spec_divisor]

/-! ## Claims -/

/-- C1: for every 9-byte scratchpad whose trailing CRC-8 check succeeds and
whose config byte (index 4) decodes to a known resolution, `read_data`
returns `Ok` with a `SensorData` whose resolution is the decoded one and
whose temperature is the little-endian 16-bit raw value of bytes 0-1 divided
by 16, 8, 4 or 2 for 12-, 11-, 10- and 9-bit resolution respectively. -/
theorem read_data_decodes_valid_scratchpad (b0 b1 b2 b3 b4 b5 b6 b7 b8 : Nat)
    (res : Resolution)
    (hcrc : crc8 [b0, b1, b2, b3, b4, b5, b6, b7, b8] = 0)
    (hres : Resolution.from_config_register b4 = some res) :
    ∃ data : SensorData,
      read_data [b0, b1, b2, b3, b4, b5, b6, b7, b8] = .ok data ∧
      data.resolution = res ∧
      data.temperature = ((b0 + 256 * b1 : Nat) : ℚ) / spec_divisor res :=
  ⟨_, read_data_eq_ok b0 b1 b2 b3 b4 b5 b6 b7 b8 res hcrc hres, rfl,
    temperature_of_eq_div res (b0 + 256 * b1)⟩

/-- Witness for C1: the power-on-default scratchpad with its correct CRC byte
0xD7 decodes to 85 °C at 12-bit resolution. -/
theorem read_data_decodes_valid_scratchpad_witness :
    crc8 [0x50, 0x05, 0x4B, 0xC6, 0x7F, 0xFF, 0x0C, 0x10, 0xD7] = 0 ∧
    ∃ data : SensorData,
      read_data [0x50, 0x05, 0x4B, 0xC6, 0x7F, 0xFF, 0x0C, 0x10, 0xD7] = .ok data ∧
      data.resolution = .Bits12 ∧
      data.temperature = ((0x50 + 256 * 0x05 : Nat) : ℚ) / spec_divisor .Bits12 :=
  ⟨by decide, read_data_decodes_valid_scratchpad 0x50 0x05 0x4B 0xC6 0x7F 0xFF 0x0C 0x10 0xD7
    .Bits12 (by decide) (by decide)⟩

/-- C2: for every scratchpad byte sequence whose trailing CRC-8 over bytes
0-7 does not match byte 8, `read_data` fails with the CRC-mismatch error and
produces no `SensorData` (decoding happens only after the CRC check). -/
theorem read_data_crc_mismatch (b0 b1 b2 b3 b4 b5 b6 b7 b8 : Nat)
    (hbytes : ∀ x ∈ [b0, b1, b2, b3, b4, b5, b6, b7], x < 256) (hb8 : b8 < 256)
    (hcrc : crc8 [b0, b1, b2, b3, b4, b5, b6, b7] ≠ b8) :
    read_data [b0, b1, b2, b3, b4, b5, b6, b7, b8] = .error .CrcMismatch := by
  have hsplit : [b0, b1, b2, b3, b4, b5, b6, b7, b8] =
      [b0, b1, b2, b3, b4, b5, b6, b7] ++ [b8] := rfl
  have h0 : crc8 [b0, b1, b2, b3, b4, b5, b6, b7, b8] ≠ 0 := by
    rw [hsplit]
    intro h
    exact hcrc ((crc8_concat_eq_zero_iff hbytes hb8).mp h)
  simp [read_data, read_scratchpad, check_crc8, h0]

/-- Witness for C2: an all-zero scratchpad with a wrong CRC byte 1 is
rejected. -/
theorem read_data_crc_mismatch_witness :
    crc8 [0, 0, 0, 0, 0, 0, 0, 0] ≠ 1 ∧
    read_data [0, 0, 0, 0, 0, 0, 0, 0, 1] = .error .CrcMismatch :=
  ⟨by decide, read_data_crc_mismatch 0 0 0 0 0 0 0 0 1 (by decide) (by decide) (by decide)⟩

/-- C3: for every scratchpad with a correct trailing CRC-8 whose config byte
(index 4) is not one of the four known resolution encodings, `read_data`
fails with the CRC-mismatch error variant; no default resolution is
substituted and no `SensorData` is returned. -/
theorem read_data_unknown_config_rejected (b0 b1 b2 b3 b4 b5 b6 b7 b8 : Nat)
    (hcrc : crc8 [b0, b1, b2, b3, b4, b5, b6, b7, b8] = 0)
    (hres : Resolution.from_config_register b4 = none) :
    read_data [b0, b1, b2, b3, b4, b5, b6, b7, b8] = .error .CrcMismatch := by
  simp [read_data, read_scratchpad, check_crc8, hcrc, hres]

/-- Witness for C3: a CRC-correct scratchpad whose config byte is 0xFF is
rejected as a CRC mismatch. -/
theorem read_data_unknown_config_rejected_witness :
    crc8 [0, 0, 0, 0, 0xFF, 0, 0, 0, 0xEB] = 0 ∧
    Resolution.from_config_register 0xFF = none ∧
    read_data [0, 0, 0, 0, 0xFF, 0, 0, 0, 0xEB] = .error .CrcMismatch :=
  ⟨by decide, by decide,
    read_data_unknown_config_rejected 0 0 0 0 0xFF 0 0 0 0xEB (by decide) (by decide)⟩

/-- C4: constructing a device handle with an address whose family-code byte
is not 0x28 fails with a family-mismatch error, and with family-code byte
0x28 succeeds regardless of the other seven address bytes; `Ds18b20.new`
takes no bus argument, so construction is a pure check on the address. -/
theorem ds18b20_new_family_check (a : Address) :
    (a.family_code = 0x28 → Ds18b20.new a = .ok { address := a }) ∧
    (a.family_code ≠ 0x28 → Ds18b20.new a = .error .FamilyCodeMismatch) := by
  constructor <;> intro h <;> simp [Ds18b20.new, FAMILY_CODE, h]

/-- Witness for C4: an address with arbitrary upper bytes and family byte
0x28 is accepted; one with family byte 0x30 is rejected. -/
theorem ds18b20_new_family_check_witness :
    Ds18b20.new (0xDEADBEEF28 : Address) = .ok { address := (0xDEADBEEF28 : Address) } ∧
    Ds18b20.new (0x30 : Address) = .error .FamilyCodeMismatch :=
  ⟨(ds18b20_new_family_check (0xDEADBEEF28 : Address)).1 (by decide),
   (ds18b20_new_family_check (0x30 : Address)).2 (by decide)⟩

/-- C5: for every pair of i8 alarm thresholds and every resolution,
`set_config` sends the write-scratchpad command addressed to this device and
then writes exactly 3 data bytes in the fixed order high-threshold byte,
low-threshold byte, resolution config byte, with nothing after them: the
whole bus trace is exactly those four actions. -/
theorem set_config_writes_three_bytes (dev : Ds18b20)
    (alarm_temp_low alarm_temp_high : Int) (res : Resolution) (bits : Nat → Bool)
    (_hlow : -128 ≤ alarm_temp_low ∧ alarm_temp_low < 128)
    (_hhigh : -128 ≤ alarm_temp_high ∧ alarm_temp_high < 128) :
    (dev.set_config alarm_temp_low alarm_temp_high res ⟨bits, 0, []⟩).2.trace =
      [.sendCommand commands.WRITE_SCRATCHPAD (some dev.address),
       .writeByte (i8_to_ne_byte alarm_temp_high),
       .writeByte (i8_to_ne_byte alarm_temp_low),
       .writeByte res.to_config_register] := by
  simp [Ds18b20.set_config, OneWire.send_command, OneWire.write_byte]

/-- Witness for C5: configuring thresholds low = -10, high = 30 at 12-bit
resolution writes the command and exactly the bytes 30, 246 (two's complement
of -10), 0x7F. -/
theorem set_config_writes_three_bytes_witness :
    (Ds18b20.set_config { address := (0x28 : Address) } (-10) 30 .Bits12
        ⟨fun _ => false, 0, []⟩).2.trace =
      [.sendCommand commands.WRITE_SCRATCHPAD (some (0x28 : Address)),
       .writeByte 30, .writeByte 246, .writeByte 0x7F] :=
  (set_config_writes_three_bytes { address := (0x28 : Address) } (-10) 30 .Bits12
    (fun _ => false) (by constructor <;> decide) (by constructor <;> decide)).trans
    (by decide)

/-- C6: for each of the four `Resolution` enumerants `r`,
`from_config_register (to_config_register r) = some r` with the fixed byte
patterns 0x1F / 0x3F / 0x5F / 0x7F, and `from_config_register` returns
`none` on every other byte value. -/
theorem resolution_config_roundtrip :
    (∀ r : Resolution, Resolution.from_config_register r.to_config_register = some r) ∧
    (Resolution.Bits9.to_config_register = 0x1F ∧
     Resolution.Bits10.to_config_register = 0x3F ∧
     Resolution.Bits11.to_config_register = 0x5F ∧
     Resolution.Bits12.to_config_register = 0x7F) ∧
    (∀ c, c < 256 → c ≠ 0x1F → c ≠ 0x3F → c ≠ 0x5F → c ≠ 0x7F →
      Resolution.from_config_register c = none) := by
  refine ⟨by decide, by decide, ?_⟩
  have h : ∀ c, c < 256 →
      (Resolution.from_config_register c = none ∨
        c = 0x1F ∨ c = 0x3F ∨ c = 0x5F ∨ c = 0x7F) := by decide
  intro c hc h1 h2 h3 h4
  have := h c hc
  tauto

/-- Witness for C6: the 12-bit round-trip, and the decode of the byte 0x20
(not one of the four patterns) is `none`. -/
theorem resolution_config_roundtrip_witness :
    Resolution.from_config_register Resolution.Bits12.to_config_register =
      some Resolution.Bits12 ∧
    Resolution.from_config_register 0x20 = none :=
  ⟨resolution_config_roundtrip.1 .Bits12,
   resolution_config_roundtrip.2.2 0x20 (by decide) (by decide) (by decide) (by decide)
     (by decide)⟩

/-- C8: the concrete scratchpad 50 05 4B C6 7F FF 0C 10 with its correct
trailing CRC byte (0xD7) decodes to temperature exactly 85 (raw 0x0550 =
1360 divided by 16 at 12-bit resolution), resolution 12-bit, high alarm 75
(0x4B) and low alarm -58 (0xC6 as signed 8-bit). -/
theorem read_data_power_on_default :
    crc8 [0x50, 0x05, 0x4B, 0xC6, 0x7F, 0xFF, 0x0C, 0x10] = 0xD7 ∧
    read_data [0x50, 0x05, 0x4B, 0xC6, 0x7F, 0xFF, 0x0C, 0x10, 0xD7] =
      .ok { temperature := 85, resolution := .Bits12,
            alarm_temp_low := -58, alarm_temp_high := 75 } := by
  constructor
  · decide
  · have hcrc : crc8 [0x50, 0x05, 0x4B, 0xC6, 0x7F, 0xFF, 0x0C, 0x10, 0xD7] = 0 := by decide
    rw [read_data_eq_ok 0x50 0x05 0x4B 0xC6 0x7F 0xFF 0x0C 0x10 0xD7 .Bits12 hcrc (by decide)]
    have ht : temperature_of .Bits12 (0x50 + 256 * 0x05) = 85 := by
      simp [temperature_of]
      norm_num
    simp [ht, i8_from_le_byte]

/-- C9: `read_data` interprets the raw 16-bit temperature field as unsigned
before scaling: whenever byte 1 has its high bit set (a two's-complement
negative reading on the wire), the returned temperature is the large
non-negative value `unsigned_raw / divisor`, never a negative number. -/
theorem read_data_unsigned_temperature (b0 b1 b2 b3 b4 b5 b6 b7 b8 : Nat)
    (res : Resolution) (hb1 : 128 ≤ b1)
    (hcrc : crc8 [b0, b1, b2, b3, b4, b5, b6, b7, b8] = 0)
    (hres : Resolution.from_config_register b4 = some res) :
    ∃ data : SensorData,
      read_data [b0, b1, b2, b3, b4, b5, b6, b7, b8] = .ok data ∧
      data.temperature = ((b0 + 256 * b1 : Nat) : ℚ) / spec_divisor res ∧
      2048 ≤ data.temperature := by
  refine ⟨_, read_data_eq_ok b0 b1 b2 b3 b4 b5 b6 b7 b8 res hcrc hres,
    temperature_of_eq_div res (b0 + 256 * b1), ?_⟩
  have hraw : (32768 : ℚ) ≤ ((b0 + 256 * b1 : Nat) : ℚ) := by
    have : (32768 : Nat) ≤ b0 + 256 * b1 := by omega
    exact_mod_cast this
  rw [temperature_of_eq_div]
  cases res <;> simp only [spec_divisor] <;> linarith

/-- Witness for C9: the scratchpad 00 FF .. (raw 0xFF00 = 65280, a -16 °C
reading in two's complement) with correct CRC byte 52 decodes to the large
positive value 65280 / 16 = 4080. -/
theorem read_data_unsigned_temperature_witness :
    crc8 [0x00, 0xFF, 0x00, 0x00, 0x7F, 0x00, 0x00, 0x00, 52] = 0 ∧
    ∃ data : SensorData,
      read_data [0x00, 0xFF, 0x00, 0x00, 0x7F, 0x00, 0x00, 0x00, 52] = .ok data ∧
      data.temperature = ((0x00 + 256 * 0xFF : Nat) : ℚ) / spec_divisor .Bits12 ∧
      2048 ≤ data.temperature :=
  ⟨by decide, read_data_unsigned_temperature 0x00 0xFF 0x00 0x00 0x7F 0x00 0x00 0x00 52
    .Bits12 (by decide) (by decide) (by decide)⟩

/-! ## Helper lemmas about the recall polling loop -/

/-- If the next `fuel` bits of the oracle are all low, the polling loop times
out after reading exactly `fuel` more bits. -/
theorem recall_poll_timeout :
    ∀ (fuel r : Nat) (bits : Nat → Bool) (tr : List BusAction),
      (∀ i, i < fuel → bits (r + i) = false) →
      (recall_poll fuel ⟨bits, r, tr⟩).1 = .error .Timeout ∧
      (recall_poll fuel ⟨bits, r, tr⟩).2.reads = r + fuel := by
  intro fuel
  induction fuel with
  | zero => intro r bits tr _; exact ⟨rfl, rfl⟩
  | succ n ih =>
    intro r bits tr h
    have hb : bits r = false := by simpa using h 0 (Nat.succ_pos n)
    have step : recall_poll (n + 1) ⟨bits, r, tr⟩ =
        recall_poll n ⟨bits, r + 1, tr ++ [.readBit]⟩ := by
      simp [recall_poll, OneWire.read_bit, hb]
    rw [step]
    have h' : ∀ i, i < n → bits ((r + 1) + i) = false := by
      intro i hi
      have := h (i + 1) (by omega)
      simpa [Nat.add_comm, Nat.add_assoc, Nat.add_left_comm] using this
    obtain ⟨h1, h2⟩ := ih (r + 1) bits (tr ++ [.readBit]) h'
    exact ⟨h1, h2.trans (by omega)⟩

/-- If the first high bit among the next `fuel` bits is the one at offset
`k`, the polling loop succeeds after reading exactly `k + 1` more bits. -/
theorem recall_poll_success :
    ∀ (fuel r k : Nat) (bits : Nat → Bool) (tr : List BusAction),
      k < fuel → bits (r + k) = true → (∀ i, i < k → bits (r + i) = false) →
      (recall_poll fuel ⟨bits, r, tr⟩).1 = .ok () ∧
      (recall_poll fuel ⟨bits, r, tr⟩).2.reads = r + k + 1 := by
  intro fuel
  induction fuel with
  | zero => intro r k bits tr hk; exact absurd hk (Nat.not_lt_zero k)
  | succ n ih =>
    intro r k bits tr hk htrue hfalse
    cases k with
    | zero =>
      have hb : bits r = true := by simpa using htrue
      constructor <;> simp [recall_poll, OneWire.read_bit, hb]
    | succ m =>
      have hb : bits r = false := by simpa using hfalse 0 (Nat.succ_pos m)
      have step : recall_poll (n + 1) ⟨bits, r, tr⟩ =
          recall_poll n ⟨bits, r + 1, tr ++ [.readBit]⟩ := by
        simp [recall_poll, OneWire.read_bit, hb]
      rw [step]
      have htrue' : bits ((r + 1) + m) = true := by
        have : (r + 1) + m = r + (m + 1) := by omega
        rw [this]; exact htrue
      have hfalse' : ∀ i, i < m → bits ((r + 1) + i) = false := by
        intro i hi
        have := hfalse (i + 1) (by omega)
        simpa [Nat.add_comm, Nat.add_assoc, Nat.add_left_comm] using this
      obtain ⟨h1, h2⟩ := ih (r + 1) m bits (tr ++ [.readBit]) (by omega) htrue' hfalse'
      exact ⟨h1, h2.trans (by omega)⟩

/-- After the recall-EEPROM command the whole call reduces to the polling
loop on a state that has read no bits yet. -/
theorem recall_from_eeprom_eq_poll (d : Nat) (address : Option Address)
    (bits : Nat → Bool) :
    recall_from_eeprom d address ⟨bits, 0, []⟩ =
      recall_poll (max_retries d)
        ⟨bits, 0, [.sendCommand commands.RECALL_EEPROM address]⟩ := by
  simp [recall_from_eeprom, OneWire.send_command]

/-- C7 (amended): `recall_from_eeprom` polls `read_bit` up to a bound of
`10000 / read_slot_duration + 1` iterations, where `/` is Rust's truncating
integer division (the claim's ceiling division overstates the bound by one
whenever the read-slot duration does not divide 10000, see
`recall_from_eeprom_ceil_bound_refuted`): if the bit at 0-based index `k`
(`k` within the bound) is the first high one it returns success after exactly
`k + 1` bit reads and no more, and if all bits within the bound are low it
terminates with a `Timeout` error after exactly `max_retries d` reads. -/
theorem recall_from_eeprom_poll_bound (d : Nat) (_hd : 0 < d)
    (address : Option Address) (bits : Nat → Bool) :
    ((∀ i, i < max_retries d → bits i = false) →
        (recall_from_eeprom d address ⟨bits, 0, []⟩).1 = .error .Timeout ∧
        (recall_from_eeprom d address ⟨bits, 0, []⟩).2.reads = max_retries d) ∧
    (∀ k, k < max_retries d → bits k = true → (∀ i, i < k → bits i = false) →
        (recall_from_eeprom d address ⟨bits, 0, []⟩).1 = .ok () ∧
        (recall_from_eeprom d address ⟨bits, 0, []⟩).2.reads = k + 1) := by
  rw [recall_from_eeprom_eq_poll d address bits]
  constructor
  · intro h
    have := recall_poll_timeout (max_retries d) 0 bits
      [.sendCommand commands.RECALL_EEPROM address] (by simpa using h)
    simpa using this
  · intro k hk htrue hfalse
    have := recall_poll_success (max_retries d) 0 k bits
      [.sendCommand commands.RECALL_EEPROM address] hk (by simpa using htrue)
      (by simpa using hfalse)
    simpa using this

/-- Witness for C7: with a 70 µs read slot and a bus whose 3rd bit (0-based
index 2) is the first high one, recall succeeds after exactly 3 bit reads. -/
theorem recall_from_eeprom_poll_bound_witness :
    (0 : Nat) < 70 ∧
    (recall_from_eeprom 70 none ⟨fun i => decide (i = 2), 0, []⟩).1 = .ok () ∧
    (recall_from_eeprom 70 none ⟨fun i => decide (i = 2), 0, []⟩).2.reads = 3 :=
  ⟨by decide,
    (recall_from_eeprom_poll_bound 70 (by decide) none (fun i => decide (i = 2))).2
      2 (by decide) (by decide) (by decide)⟩

/-- Counterexample refuting C7 as stated: the claim computes the bound with
ceiling division, `⌈10000 / d⌉ + 1`. For the upstream crate's 70 µs read
slot that bound is 143 + 1 = 144, so a bit sequence whose first high bit is
the 144th read (0-based index 143) is "the first true within the bound" and
the claim predicts success after exactly 144 reads. The code computes
`10000 / 70 + 1 = 143` with truncating division and times out after 143
reads on that very sequence. -/
theorem recall_from_eeprom_ceil_bound_refuted :
    (10000 + 70 - 1) / 70 + 1 = 144 ∧
    max_retries 70 = 143 ∧
    (fun i => decide (i = 143)) 143 = true ∧
    (recall_from_eeprom 70 none ⟨fun i => decide (i = 143), 0, []⟩).1 =
      .error .Timeout ∧
    (recall_from_eeprom 70 none ⟨fun i => decide (i = 143), 0, []⟩).2.reads = 143 := by
  refine ⟨by norm_num, by norm_num [max_retries], by decide, ?_, ?_⟩
  · have := (recall_poll_timeout 143 0 (fun i => decide (i = 143))
      [.sendCommand commands.RECALL_EEPROM none] (by decide)).1
    rw [recall_from_eeprom_eq_poll]
    simpa [max_retries] using this
  · have := (recall_poll_timeout 143 0 (fun i => decide (i = 143))
      [.sendCommand commands.RECALL_EEPROM none] (by decide)).2
    rw [recall_from_eeprom_eq_poll]
    simpa [max_retries] using this

/-- C10: the temperature decode introduces no floating-point rounding error:
for every 16-bit raw value and every resolution, both the raw value itself
and its quotient by the resolution's power-of-two divisor are exactly
representable in IEEE-754 binary32 (24-bit significand, exponent well inside
the normal range), so the `f32` operations of `read_data` return the exact
rational `raw / 2^k`. -/
theorem temperature_exact_in_float32 (raw : Nat) (hraw : raw < 2 ^ 16)
    (res : Resolution) :
    float32_representable ((raw : ℚ)) ∧
    float32_representable (temperature_of res raw) := by
  have hm : (raw : ℤ).natAbs < 2 ^ 24 := by
    simp only [Int.natAbs_ofNat]
    omega
  constructor
  · exact ⟨raw, 0, by simp, hm, by norm_num, by norm_num⟩
  · cases res
    case Bits9 =>
      refine ⟨raw, -1, ?_, hm, by norm_num, by norm_num⟩
      rw [temperature_of, zpow_neg]
      norm_num
      ring
    case Bits10 =>
      refine ⟨raw, -2, ?_, hm, by norm_num, by norm_num⟩
      rw [temperature_of, zpow_neg]
      norm_num
      ring
    case Bits11 =>
      refine ⟨raw, -3, ?_, hm, by norm_num, by norm_num⟩
      rw [temperature_of, zpow_neg]
      norm_num
      ring
    case Bits12 =>
      refine ⟨raw, -4, ?_, hm, by norm_num, by norm_num⟩
      rw [temperature_of, zpow_neg]
      norm_num
      ring

/-- Witness for C10: the power-on default raw reading 1360 and its 12-bit
scaling 85 are exactly representable. -/
theorem temperature_exact_in_float32_witness :
    (1360 : Nat) < 2 ^ 16 ∧
    (float32_representable ((1360 : Nat) : ℚ) ∧
     float32_representable (temperature_of .Bits12 1360)) :=
  ⟨by norm_num, temperature_exact_in_float32 1360 (by norm_num) .Bits12⟩

end DS18B20
